import Mathlib

/-!
Shallow embedding of `src/angr/functionmanager.py`: the `Function` record
(per-function ledger: transition graph, call/return sites, argument
locations, frame metadata) and the `FunctionManager` registry
(address-keyed map of `Function` plus the inter-procedural call graph).

Python dictionaries are modelled as association lists with in-place
update (`dictInsert`), preserving insertion order as CPython does;
Python sets and `networkx` node collections are modelled as
insertion-ordered duplicate-free lists (`insertNode`).  A `networkx`
`DiGraph` with a `type` edge attribute becomes `TGraph` (typed edges,
attribute overwritten on re-insertion); the attribute-free
`interfunction_graph` becomes `SGraph` (simple digraph, no parallel
edges, mirroring `networkx`).
-/

namespace Angr

/-- The two edge tags used on the per-function transition graph
(`type='transition'` and `type='return_from_call'` in the source). -/
inductive EdgeType where
  | transition
  | return_from_call
deriving DecidableEq, Repr

/-- Insert into an insertion-ordered set (Python `set.add` /
`networkx` node insertion): append if absent, no-op if present. -/
def insertNode (ns : List Nat) (n : Nat) : List Nat :=
  if n ∈ ns then ns else ns ++ [n]

/-- Python `d[k] = v`: overwrite in place if `k` present (keeping its
position, as CPython dictionaries do), else append. -/
def dictInsert {α β : Type} [DecidableEq α] : List (α × β) → α → β → List (α × β)
  | [], k, v => [(k, v)]
  | (k', v') :: rest, k, v =>
      if k' = k then (k, v) :: rest else (k', v') :: dictInsert rest k v

/-- Python `d[k] if k in d else None`. -/
def dictLookup {α β : Type} [DecidableEq α] : List (α × β) → α → Option β
  | [], _ => none
  | (k', v') :: rest, k => if k' = k then some v' else dictLookup rest k

/-- Python `d[k].method(...)`: apply `g` to the value stored at `k`
(no-op when `k` is absent). -/
def dictUpdate {α β : Type} [DecidableEq α] : List (α × β) → α → (β → β) → List (α × β)
  | [], _, _ => []
  | (k', v') :: rest, k, g =>
      if k' = k then (k', g v') :: rest else (k', v') :: dictUpdate rest k g

/-- `networkx.DiGraph` with a `type` attribute on every edge, as used
for `Function._transition_graph`. -/
structure TGraph where
  nodes : List Nat
  edges : List ((Nat × Nat) × EdgeType)
deriving DecidableEq, Repr

/-- `networkx` `add_edge(u, v, type=t)`: both endpoints become nodes,
and the edge's attribute is set (overwritten if the edge exists). -/
def TGraph.add_edge (g : TGraph) (u v : Nat) (t : EdgeType) : TGraph :=
  { nodes := insertNode (insertNode g.nodes u) v
    edges := dictInsert g.edges (u, v) t }

/-- `networkx` `add_node(n)`. -/
def TGraph.add_node (g : TGraph) (n : Nat) : TGraph :=
  { g with nodes := insertNode g.nodes n }

/-- `networkx.DiGraph` without edge attributes, as used for
`FunctionManager.interfunction_graph`.  `networkx` digraphs are
simple: re-adding an existing edge is a no-op. -/
structure SGraph where
  nodes : List Nat
  edges : List (Nat × Nat)
deriving DecidableEq, Repr

/-- `networkx` `add_edge(u, v)` on an attribute-free digraph. -/
def SGraph.add_edge (g : SGraph) (u v : Nat) : SGraph :=
  { nodes := insertNode (insertNode g.nodes u) v
    edges := if (u, v) ∈ g.edges then g.edges else g.edges ++ [(u, v)] }

/-- `Function`: a representation of a function and various information
about it (`functionmanager.py`, class `Function`).  Field names follow
the Python attributes. -/
structure Function where
  _transition_graph : TGraph
  _ret_sites : List Nat
  _call_sites : List (Nat × (Nat × Nat))
  _retn_addr_to_call_site : List (Nat × Nat)
  _addr : Nat
  name : Option String
  _argument_registers : List Int
  _argument_stack_variables : List Int
  _bp_on_stack : Bool
  _retaddr_on_stack : Bool
  _sp_difference : Int
deriving DecidableEq, Repr

/-- `Function.__init__(addr, name=None)`. -/
def Function.init (addr : Nat) (name : Option String) : Function :=
  { _transition_graph := ⟨[], []⟩
    _ret_sites := []
    _call_sites := []
    _retn_addr_to_call_site := []
    _addr := addr
    name := name
    _argument_registers := []
    _argument_stack_variables := []
    _bp_on_stack := false
    _retaddr_on_stack := false
    _sp_difference := 0 }

/-- `Function.transit_to(from_addr, to_addr)`. -/
def Function.transit_to (f : Function) (from_addr to_addr : Nat) : Function :=
  { f with _transition_graph :=
      f._transition_graph.add_edge from_addr to_addr EdgeType.transition }

/-- `Function.return_from_call(first_block_addr, to_addr)`. -/
def Function.return_from_call (f : Function) (first_block_addr to_addr : Nat) : Function :=
  { f with _transition_graph :=
      f._transition_graph.add_edge first_block_addr to_addr EdgeType.return_from_call }

/-- `Function.add_block(addr)`. -/
def Function.add_block (f : Function) (addr : Nat) : Function :=
  { f with _transition_graph := f._transition_graph.add_node addr }

/-- `Function.add_return_site(return_site_addr)`. -/
def Function.add_return_site (f : Function) (return_site_addr : Nat) : Function :=
  { f with _ret_sites := insertNode f._ret_sites return_site_addr }

/-- `Function.add_call_site(call_site_addr, call_target_addr, retn_addr)`. -/
def Function.add_call_site (f : Function)
    (call_site_addr call_target_addr retn_addr : Nat) : Function :=
  { f with
    _call_sites := dictInsert f._call_sites call_site_addr (call_target_addr, retn_addr)
    _retn_addr_to_call_site := dictInsert f._retn_addr_to_call_site retn_addr call_site_addr }

/-- `Function.get_call_target(callsite_addr)`. -/
def Function.get_call_target (f : Function) (callsite_addr : Nat) : Option Nat :=
  match dictLookup f._call_sites callsite_addr with
  | some p => some p.1
  | none => none

/-- `Function.get_call_return(callsite_addr)`. -/
def Function.get_call_return (f : Function) (callsite_addr : Nat) : Option Nat :=
  match dictLookup f._call_sites callsite_addr with
  | some p => some p.2
  | none => none

/-- `Function.basic_blocks` (= the transition graph's nodes). -/
def Function.basic_blocks (f : Function) : List Nat :=
  f._transition_graph.nodes

/-- `Function.endpoints` (= `list(self._ret_sites)`). -/
def Function.endpoints (f : Function) : List Nat :=
  f._ret_sites

/-- `Function.add_argument_register(reg_offset)`: append if absent. -/
def Function.add_argument_register (f : Function) (reg_offset : Int) : Function :=
  if reg_offset ∈ f._argument_registers then f
  else { f with _argument_registers := f._argument_registers ++ [reg_offset] }

/-- `Function.add_argument_stack_variable(stack_var_offset)`: append if absent. -/
def Function.add_argument_stack_variable (f : Function) (stack_var_offset : Int) : Function :=
  if stack_var_offset ∈ f._argument_stack_variables then f
  else { f with _argument_stack_variables := f._argument_stack_variables ++ [stack_var_offset] }

/-- `Function.arguments`. -/
def Function.arguments (f : Function) : List Int × List Int :=
  (f._argument_registers, f._argument_stack_variables)

/-- `Function.has_return` (= `len(self._ret_sites) > 0`). -/
def Function.has_return (f : Function) : Bool :=
  decide (0 < f._ret_sites.length)

/-- `FunctionManager`: function-boundaries management tool.  The unused
`project`/`binary` constructor arguments are omitted; the state is the
address-keyed function map plus the inter-function call graph. -/
structure FunctionManager where
  _function_map : List (Nat × Function)
  interfunction_graph : SGraph
deriving DecidableEq, Repr

/-- `FunctionManager.__init__`: empty map, empty call graph. -/
def FunctionManager.init : FunctionManager :=
  { _function_map := [], interfunction_graph := ⟨[], []⟩ }

/-- `FunctionManager._create_function_if_not_exist(function_addr)`:
get-or-create, registering the new function's entry as one of its own
blocks on first creation. -/
def FunctionManager._create_function_if_not_exist
    (m : FunctionManager) (function_addr : Nat) : FunctionManager :=
  match dictLookup m._function_map function_addr with
  | some _ => m
  | none =>
      { m with _function_map :=
          (dictInsert m._function_map function_addr
            ((Function.init function_addr none).add_block function_addr)) }

/-- `FunctionManager.call_to(function_addr, from_addr, to_addr, retn_addr)`. -/
def FunctionManager.call_to (m : FunctionManager)
    (function_addr from_addr to_addr retn_addr : Nat) : FunctionManager :=
  let m1 := m._create_function_if_not_exist function_addr
  let m2 := { m1 with _function_map :=
      (dictUpdate m1._function_map function_addr
        (fun f => f.add_call_site from_addr to_addr retn_addr)) }
  { m2 with interfunction_graph := m2.interfunction_graph.add_edge function_addr to_addr }

/-- `FunctionManager.return_from(function_addr, from_addr, to_addr=None)`:
the `to_addr` parameter is accepted but never read. -/
def FunctionManager.return_from (m : FunctionManager)
    (function_addr from_addr : Nat) (to_addr : Option Nat) : FunctionManager :=
  let m1 := m._create_function_if_not_exist function_addr
  { m1 with _function_map :=
      (dictUpdate m1._function_map function_addr
        (fun f => f.add_return_site from_addr)) }

/-- `FunctionManager.transit_to(function_addr, from_addr, to_addr)`. -/
def FunctionManager.transit_to (m : FunctionManager)
    (function_addr from_addr to_addr : Nat) : FunctionManager :=
  let m1 := m._create_function_if_not_exist function_addr
  { m1 with _function_map :=
      (dictUpdate m1._function_map function_addr
        (fun f => f.transit_to from_addr to_addr)) }

/-- `FunctionManager.return_from_call(function_addr, first_block_addr, to_addr)`. -/
def FunctionManager.return_from_call (m : FunctionManager)
    (function_addr first_block_addr to_addr : Nat) : FunctionManager :=
  let m1 := m._create_function_if_not_exist function_addr
  { m1 with _function_map :=
      (dictUpdate m1._function_map function_addr
        (fun f => f.return_from_call first_block_addr to_addr)) }

/-- `FunctionManager.functions`. -/
def FunctionManager.functions (m : FunctionManager) : List (Nat × Function) :=
  m._function_map

/-- `FunctionManager.function(addr)`: non-creating lookup, `None` when
absent. -/
def FunctionManager.function (m : FunctionManager) (addr : Nat) : Option Function :=
  match dictLookup m._function_map addr with
  | some f => some f
  | none => none

/-- The four mutating events a recovery driver can feed into the
registry (§6 of the specification). -/
inductive MEvent where
  | call_to (function_addr from_addr to_addr retn_addr : Nat)
  | return_from (function_addr from_addr : Nat) (to_addr : Option Nat)
  | transit_to (function_addr from_addr to_addr : Nat)
  | return_from_call (function_addr first_block_addr to_addr : Nat)
deriving DecidableEq, Repr

/-- The function address an event names (the auto-vivified key). -/
def MEvent.function_addr : MEvent → Nat
  | .call_to f _ _ _ => f
  | .return_from f _ _ => f
  | .transit_to f _ _ => f
  | .return_from_call f _ _ => f

/-- Dispatch an event to the registry. -/
def applyEvent (m : FunctionManager) : MEvent → FunctionManager
  | .call_to f a b r => m.call_to f a b r
  | .return_from f a t => m.return_from f a t
  | .transit_to f a b => m.transit_to f a b
  | .return_from_call f a b => m.return_from_call f a b

/-- Every mutating operation available on a single `Function` record. -/
inductive FOp where
  | transit_to (from_addr to_addr : Nat)
  | return_from_call (first_block_addr to_addr : Nat)
  | add_block (addr : Nat)
  | add_return_site (addr : Nat)
  | add_call_site (call_site_addr call_target_addr retn_addr : Nat)
  | add_argument_register (reg_offset : Int)
  | add_argument_stack_variable (stack_var_offset : Int)
  | set_bp_on_stack (v : Bool)
  | set_retaddr_on_stack (v : Bool)
  | set_sp_difference (v : Int)
  | set_name (n : Option String)
deriving DecidableEq, Repr

/-- Apply a record-level operation. -/
def FOp.apply (f : Function) : FOp → Function
  | .transit_to a b => f.transit_to a b
  | .return_from_call a b => f.return_from_call a b
  | .add_block a => f.add_block a
  | .add_return_site a => f.add_return_site a
  | .add_call_site a b c => f.add_call_site a b c
  | .add_argument_register x => f.add_argument_register x
  | .add_argument_stack_variable x => f.add_argument_stack_variable x
  | .set_bp_on_stack v => { f with _bp_on_stack := v }
  | .set_retaddr_on_stack v => { f with _retaddr_on_stack := v }
  | .set_sp_difference v => { f with _sp_difference := v }
  | .set_name n => { f with name := n }

/-- Apply a sequence of record-level operations left to right. -/
def applyOps (f : Function) (ops : List FOp) : Function :=
  ops.foldl FOp.apply f

/-- Apply a sequence of `add_call_site(site, target, retn)` triples. -/
def applyCallSites (f : Function) (ops : List (Nat × Nat × Nat)) : Function :=
  ops.foldl (fun g op => g.add_call_site op.1 op.2.1 op.2.2) f

/-- Reverse-index consistency: every key `r` of `_retn_addr_to_call_site`
points back to a call site whose stored hypothetical return is `r`. -/
def ReverseConsistent (f : Function) : Prop :=
  ∀ r a, dictLookup f._retn_addr_to_call_site r = some a →
    ∃ p, dictLookup f._call_sites a = some p ∧ p.2 = r

/-- The registry holds a record for `e` that lists `e` among its own
basic blocks. -/
def vivified (m : FunctionManager) (e : Nat) : Prop :=
  ∃ rec, m.function e = some rec ∧ e ∈ rec.basic_blocks

/-- Well-formedness of a registry: every record's call-site map has
duplicate-free keys (true of every reachable state, since Python
dictionaries cannot hold a key twice). -/
def ManagerWF (m : FunctionManager) : Prop :=
  ∀ p ∈ m._function_map, (p.2._call_sites.map Prod.fst).Nodup

/-- Number of occurrences of `x` in a list (used to state "exactly one
entry/edge" claims). -/
def countOcc {γ : Type} [DecidableEq γ] : List γ → γ → Nat
  | [], _ => 0
  | y :: ys, x => (if y = x then 1 else 0) + countOcc ys x

/-- The end-to-end scenario of §8: `transit_to`; `call_to`; `return_from`
starting from an empty registry. -/
def demoM : FunctionManager :=
  ((FunctionManager.init.transit_to 0x1000 0x1000 0x1010).call_to
      0x1000 0x1010 0x2000 0x1020).return_from 0x1000 0x1020 none

/-- The record the end-to-end scenario produces at `0x1000`. -/
def demoRec : Function :=
  (demoM.function 0x1000).getD (Function.init 0 none)

/-! ### Basic facts about the ordered-set and dictionary encodings -/

theorem mem_insertNode_self (ns : List Nat) (n : Nat) : n ∈ insertNode ns n := by
  by_cases h : n ∈ ns <;> simp [insertNode, h]

theorem mem_insertNode_of_mem {ns : List Nat} {x : Nat} (h : x ∈ ns) (n : Nat) :
    x ∈ insertNode ns n := by
  by_cases hn : n ∈ ns <;> simp [insertNode, hn, h]

theorem insertNode_of_mem {ns : List Nat} {n : Nat} (h : n ∈ ns) : insertNode ns n = ns := by
  simp [insertNode, h]

theorem insertNode_length_pos (ns : List Nat) (n : Nat) : 0 < (insertNode ns n).length := by
  by_cases h : n ∈ ns
  · simp only [insertNode, if_pos h]
    exact List.length_pos_of_mem h
  · simp [insertNode, h]

section Dict

variable {α β : Type} [DecidableEq α]

theorem dictLookup_dictInsert_self (m : List (α × β)) (k : α) (v : β) :
    dictLookup (dictInsert m k v) k = some v := by
  induction m with
  | nil => simp [dictInsert, dictLookup]
  | cons hd tl ih =>
      obtain ⟨k', v'⟩ := hd
      by_cases h : k' = k <;> simp [dictInsert, dictLookup, h, ih]

theorem dictLookup_dictInsert_ne (m : List (α × β)) (k k' : α) (v : β) (h : k' ≠ k) :
    dictLookup (dictInsert m k v) k' = dictLookup m k' := by
  induction m with
  | nil => simp [dictInsert, dictLookup, Ne.symm h]
  | cons hd tl ih =>
      obtain ⟨k₀, v₀⟩ := hd
      by_cases h0 : k₀ = k
      · subst h0
        simp [dictInsert, dictLookup, Ne.symm h]
      · simp [dictInsert, dictLookup, h0, ih]

theorem dictInsert_idem (m : List (α × β)) (k : α) (v : β) :
    dictInsert (dictInsert m k v) k v = dictInsert m k v := by
  induction m with
  | nil => simp [dictInsert]
  | cons hd tl ih =>
      obtain ⟨k', v'⟩ := hd
      by_cases h : k' = k <;> simp [dictInsert, h, ih]

theorem dictLookup_dictUpdate_self (m : List (α × β)) (k : α) (g : β → β) {v : β}
    (h : dictLookup m k = some v) :
    dictLookup (dictUpdate m k g) k = some (g v) := by
  induction m with
  | nil => simp [dictLookup] at h
  | cons hd tl ih =>
      obtain ⟨k', v'⟩ := hd
      by_cases h0 : k' = k
      · simp [dictLookup, h0] at h
        simp [dictUpdate, dictLookup, h0, h]
      · simp [dictLookup, h0] at h
        simp [dictUpdate, dictLookup, h0, ih h]

theorem dictLookup_dictUpdate_ne (m : List (α × β)) (k k' : α) (g : β → β) (h : k' ≠ k) :
    dictLookup (dictUpdate m k g) k' = dictLookup m k' := by
  induction m with
  | nil => simp [dictUpdate]
  | cons hd tl ih =>
      obtain ⟨k₀, v₀⟩ := hd
      by_cases h0 : k₀ = k
      · subst h0
        simp [dictUpdate, dictLookup, Ne.symm h]
      · simp [dictUpdate, dictLookup, h0, ih]

theorem dictUpdate_dictUpdate (m : List (α × β)) (k : α) (g g' : β → β) :
    dictUpdate (dictUpdate m k g) k g' = dictUpdate m k (fun v => g' (g v)) := by
  induction m with
  | nil => simp [dictUpdate]
  | cons hd tl ih =>
      obtain ⟨k', v'⟩ := hd
      by_cases h : k' = k <;> simp [dictUpdate, h, ih]

theorem dictUpdate_congr (m : List (α × β)) (k : α) {g g' : β → β}
    (h : ∀ v, g v = g' v) : dictUpdate m k g = dictUpdate m k g' := by
  induction m with
  | nil => simp [dictUpdate]
  | cons hd tl ih =>
      obtain ⟨k', v'⟩ := hd
      by_cases h0 : k' = k <;> simp [dictUpdate, h0, h, ih]

theorem dictUpdate_dictInsert_of_none (m : List (α × β)) (k : α) (v : β) (g : β → β)
    (h : dictLookup m k = none) :
    dictUpdate (dictInsert m k v) k g = dictInsert m k (g v) := by
  induction m with
  | nil => simp [dictInsert, dictUpdate]
  | cons hd tl ih =>
      obtain ⟨k', v'⟩ := hd
      by_cases h0 : k' = k
      · simp [dictLookup, h0] at h
      · simp [dictLookup, h0] at h
        simp [dictInsert, dictUpdate, h0, ih h]

theorem dictLookup_mem {m : List (α × β)} {k : α} {v : β}
    (h : dictLookup m k = some v) : (k, v) ∈ m := by
  induction m with
  | nil => simp [dictLookup] at h
  | cons hd tl ih =>
      obtain ⟨k', v'⟩ := hd
      by_cases h0 : k' = k
      · simp [dictLookup, h0] at h
        simp [h0, h]
      · simp [dictLookup, h0] at h
        simp [ih h]

theorem mem_keys_dictInsert (m : List (α × β)) (k : α) (v : β) (x : α) :
    x ∈ (dictInsert m k v).map Prod.fst ↔ x = k ∨ x ∈ m.map Prod.fst := by
  induction m with
  | nil => simp [dictInsert]
  | cons hd tl ih =>
      obtain ⟨k', v'⟩ := hd
      by_cases h : k' = k
      · subst h
        simp [dictInsert]
      · simp [dictInsert, h, ih]
        tauto

theorem dictInsert_keys_nodup (m : List (α × β)) (k : α) (v : β)
    (h : (m.map Prod.fst).Nodup) : ((dictInsert m k v).map Prod.fst).Nodup := by
  induction m with
  | nil => simp [dictInsert]
  | cons hd tl ih =>
      obtain ⟨k', v'⟩ := hd
      simp only [List.map_cons, List.nodup_cons] at h
      by_cases h0 : k' = k
      · subst h0
        simp [dictInsert, h.1, h.2]
      · simp only [dictInsert, if_neg h0, List.map_cons, List.nodup_cons]
        refine ⟨?_, ih h.2⟩
        rw [mem_keys_dictInsert]
        push_neg
        exact ⟨h0, h.1⟩

end Dict

section Count

variable {γ : Type} [DecidableEq γ]

theorem countOcc_eq_zero {l : List γ} {x : γ} (hx : x ∉ l) : countOcc l x = 0 := by
  induction l with
  | nil => rfl
  | cons y ys ih =>
      have hne : y ≠ x := fun he => hx (he ▸ List.mem_cons_self y ys)
      have hx' : x ∉ ys := fun hm => hx (List.mem_cons_of_mem y hm)
      simp [countOcc, hne, ih hx']

theorem countOcc_eq_one {l : List γ} {x : γ} (hn : l.Nodup) (hm : x ∈ l) :
    countOcc l x = 1 := by
  induction l with
  | nil => cases hm
  | cons y ys ih =>
      rw [List.nodup_cons] at hn
      rcases List.mem_cons.1 hm with he | hm'
      · subst he
        simp [countOcc, countOcc_eq_zero hn.1]
      · have hne : y ≠ x := fun he => hn.1 (he ▸ hm')
        simp [countOcc, hne, ih hn.2 hm']

theorem count_key_dictInsert {β : Type} (m : List (γ × β)) (k : γ) (v : β)
    (h : (m.map Prod.fst).Nodup) : countOcc ((dictInsert m k v).map Prod.fst) k = 1 :=
  countOcc_eq_one (dictInsert_keys_nodup m k v h)
    ((mem_keys_dictInsert m k v k).2 (Or.inl rfl))

end Count

/-! ### Graph-level facts -/

theorem mem_edges_add_edge (g : SGraph) (u v : Nat) : (u, v) ∈ (g.add_edge u v).edges := by
  by_cases h : (u, v) ∈ g.edges <;> simp [SGraph.add_edge, h]

theorem add_edge_edges_nodup (g : SGraph) (u v : Nat) (h : g.edges.Nodup) :
    (g.add_edge u v).edges.Nodup := by
  by_cases hm : (u, v) ∈ g.edges
  · simpa [SGraph.add_edge, hm] using h
  · simp [SGraph.add_edge, hm, List.nodup_append, h]

theorem add_edge_idem (g : SGraph) (u v : Nat) :
    (g.add_edge u v).add_edge u v = g.add_edge u v := by
  have hu : u ∈ (g.add_edge u v).nodes :=
    mem_insertNode_of_mem (mem_insertNode_self g.nodes u) v
  have hv : v ∈ (g.add_edge u v).nodes := mem_insertNode_self _ v
  have he : (u, v) ∈ (g.add_edge u v).edges := mem_edges_add_edge g u v
  show SGraph.mk _ _ = _
  rw [SGraph.mk.injEq]
  constructor
  · show insertNode (insertNode (g.add_edge u v).nodes u) v = (g.add_edge u v).nodes
    rw [insertNode_of_mem hu, insertNode_of_mem hv]
  · show (if (u, v) ∈ (g.add_edge u v).edges then _ else _) = (g.add_edge u v).edges
    rw [if_pos he]

theorem add_edge_idem_TGraph (g : TGraph) (u v : Nat) (t : EdgeType) :
    (g.add_edge u v t).add_edge u v t = g.add_edge u v t := by
  have hu : u ∈ (g.add_edge u v t).nodes :=
    mem_insertNode_of_mem (mem_insertNode_self g.nodes u) v
  have hv : v ∈ (g.add_edge u v t).nodes := mem_insertNode_self _ v
  show TGraph.mk _ _ = _
  rw [TGraph.mk.injEq]
  constructor
  · show insertNode (insertNode (g.add_edge u v t).nodes u) v = (g.add_edge u v t).nodes
    rw [insertNode_of_mem hu, insertNode_of_mem hv]
  · exact dictInsert_idem g.edges (u, v) t

/-! ### Facts about `Function` operations -/

theorem add_call_site_idem (f : Function) (a b r : Nat) :
    (f.add_call_site a b r).add_call_site a b r = f.add_call_site a b r := by
  simp [Function.add_call_site, dictInsert_idem]

theorem basic_blocks_add_call_site (f : Function) (a b r : Nat) :
    (f.add_call_site a b r).basic_blocks = f.basic_blocks := rfl

theorem basic_blocks_add_return_site (f : Function) (a : Nat) :
    (f.add_return_site a).basic_blocks = f.basic_blocks := rfl

theorem mem_basic_blocks_transit_to {f : Function} {x : Nat} (h : x ∈ f.basic_blocks)
    (a b : Nat) : x ∈ (f.transit_to a b).basic_blocks :=
  mem_insertNode_of_mem (mem_insertNode_of_mem h a) b

theorem mem_basic_blocks_return_from_call {f : Function} {x : Nat} (h : x ∈ f.basic_blocks)
    (a b : Nat) : x ∈ (f.return_from_call a b).basic_blocks :=
  mem_insertNode_of_mem (mem_insertNode_of_mem h a) b

/-- `_ret_sites` never shrinks under any record-level operation. -/
theorem ret_sites_length_pos_apply (f : Function) (op : FOp)
    (h : 0 < f._ret_sites.length) : 0 < (FOp.apply f op)._ret_sites.length := by
  cases op <;>
    simp [FOp.apply, Function.transit_to, Function.return_from_call, Function.add_block,
      Function.add_return_site, Function.add_call_site, Function.add_argument_register,
      Function.add_argument_stack_variable, insertNode_length_pos] <;>
    first
      | exact h
      | (split <;> exact h)

/-! ### Decomposition of the `FunctionManager` mutators -/

theorem function_eq_dictLookup (m : FunctionManager) (addr : Nat) :
    m.function addr = dictLookup m._function_map addr := by
  unfold FunctionManager.function
  cases dictLookup m._function_map addr <;> rfl

theorem create_graph (m : FunctionManager) (e : Nat) :
    (m._create_function_if_not_exist e).interfunction_graph = m.interfunction_graph := by
  unfold FunctionManager._create_function_if_not_exist
  split <;> rfl

theorem create_of_some {m : FunctionManager} {e : Nat} {v : Function}
    (h : dictLookup m._function_map e = some v) :
    m._create_function_if_not_exist e = m := by
  unfold FunctionManager._create_function_if_not_exist
  rw [h]

theorem create_map_none {m : FunctionManager} {e : Nat}
    (h : dictLookup m._function_map e = none) :
    (m._create_function_if_not_exist e)._function_map =
      dictInsert m._function_map e ((Function.init e none).add_block e) := by
  unfold FunctionManager._create_function_if_not_exist
  rw [h]

theorem create_lookup_ne {m : FunctionManager} {e addr : Nat} (hne : addr ≠ e) :
    dictLookup (m._create_function_if_not_exist e)._function_map addr =
      dictLookup m._function_map addr := by
  unfold FunctionManager._create_function_if_not_exist
  split
  · rfl
  · exact dictLookup_dictInsert_ne _ _ _ _ hne

theorem call_to_def (m : FunctionManager) (f a b r : Nat) :
    m.call_to f a b r =
      { _function_map :=
          dictUpdate (m._create_function_if_not_exist f)._function_map f
            (fun x => x.add_call_site a b r)
        interfunction_graph :=
          (m._create_function_if_not_exist f).interfunction_graph.add_edge f b } := rfl

theorem return_from_def (m : FunctionManager) (f a : Nat) (t : Option Nat) :
    m.return_from f a t =
      { _function_map :=
          dictUpdate (m._create_function_if_not_exist f)._function_map f
            (fun x => x.add_return_site a)
        interfunction_graph := (m._create_function_if_not_exist f).interfunction_graph } := rfl

theorem transit_to_def (m : FunctionManager) (f a b : Nat) :
    m.transit_to f a b =
      { _function_map :=
          dictUpdate (m._create_function_if_not_exist f)._function_map f
            (fun x => x.transit_to a b)
        interfunction_graph := (m._create_function_if_not_exist f).interfunction_graph } := rfl

theorem return_from_call_def (m : FunctionManager) (f a b : Nat) :
    m.return_from_call f a b =
      { _function_map :=
          dictUpdate (m._create_function_if_not_exist f)._function_map f
            (fun x => x.return_from_call a b)
        interfunction_graph := (m._create_function_if_not_exist f).interfunction_graph } := rfl

theorem call_to_graph (m : FunctionManager) (f a b r : Nat) :
    (m.call_to f a b r).interfunction_graph = m.interfunction_graph.add_edge f b := by
  rw [call_to_def]
  show (m._create_function_if_not_exist f).interfunction_graph.add_edge f b = _
  rw [create_graph]

theorem manager_ext {m₁ m₂ : FunctionManager}
    (h1 : m₁._function_map = m₂._function_map)
    (h2 : m₁.interfunction_graph = m₂.interfunction_graph) : m₁ = m₂ := by
  cases m₁
  cases m₂
  simp_all

theorem ret_sites_length_pos_applyOps (ops : List FOp) :
    ∀ f : Function, 0 < f._ret_sites.length → 0 < (applyOps f ops)._ret_sites.length := by
  induction ops with
  | nil => intro f h; simpa [applyOps] using h
  | cons op rest ih =>
      intro f h
      simpa [applyOps] using ih (FOp.apply f op) (ret_sites_length_pos_apply f op h)

/-! ### Claim theorems -/

/-- C4: starting from an empty registry, after
`transit_to(0x1000,0x1000,0x1010)`; `call_to(0x1000,0x1010,0x2000,0x1020)`;
`return_from(0x1000,0x1020)` the function at `0x1000` has basic blocks
including `0x1000` and `0x1010`, exactly the one call site
`0x1010 → (0x2000, 0x1020)`, return-site set `{0x1020}`, `has_return`
true, and the call graph has the edge `0x1000 → 0x2000`. -/
theorem end_to_end_scenario :
    (demoM.function 0x1000).isSome = true ∧
    0x1000 ∈ demoRec.basic_blocks ∧
    0x1010 ∈ demoRec.basic_blocks ∧
    demoRec._call_sites = [(0x1010, (0x2000, 0x1020))] ∧
    demoRec._ret_sites = [0x1020] ∧
    demoRec.has_return = true ∧
    (0x1000, 0x2000) ∈ demoM.interfunction_graph.edges := by
  decide

/-- C5: on a freshly created record, `add_argument_register 4; 4; 8`
leaves the argument-register sequence `[4, 8]` (deduplicated, insertion
order), and `add_argument_stack_variable` obeys the same
append-if-absent rule on the stack-offset sequence. -/
theorem argument_dedup_order (addr : Nat) (n : Option String) :
    ((((Function.init addr n).add_argument_register 4).add_argument_register
        4).add_argument_register 8)._argument_registers = [4, 8] ∧
    ((((Function.init addr n).add_argument_stack_variable 4).add_argument_stack_variable
        4).add_argument_stack_variable 8)._argument_stack_variables = [4, 8] :=
  ⟨rfl, rfl⟩

/-- C9: the extra `to_addr` parameter of `return_from` carries no
effect: any two target values, or omitting the value (`none`, the
Python default), produce the same registry state. -/
theorem return_from_ignores_target (m : FunctionManager) (f a : Nat) (t t' : Option Nat) :
    m.return_from f a t = m.return_from f a t' ∧
    m.return_from f a t = m.return_from f a none :=
  ⟨rfl, rfl⟩

/-- C6: `has_return` is false on a freshly created record, true after
one `add_return_site`, equivalent to the return-site set being
non-empty, and stays true under any further sequence of record
operations. -/
theorem has_return_spec :
    (∀ (a : Nat) (n : Option String), (Function.init a n).has_return = false) ∧
    (∀ (f : Function) (r : Nat), (f.add_return_site r).has_return = true) ∧
    (∀ f : Function, f.has_return = true ↔ f._ret_sites ≠ []) ∧
    (∀ (f : Function) (ops : List FOp), f.has_return = true →
      (applyOps f ops).has_return = true) := by
  refine ⟨fun a n => rfl, fun f r => ?_, fun f => ?_, fun f ops h => ?_⟩
  · simp only [Function.has_return, Function.add_return_site, decide_eq_true_eq]
    exact insertNode_length_pos _ _
  · simp [Function.has_return, List.length_pos]
  · simp only [Function.has_return, decide_eq_true_eq] at h ⊢
    exact ret_sites_length_pos_applyOps ops f h

/-- C6 witness: the monotonicity conjunct applied to a record with one
return site and a subsequent `transit_to`. -/
theorem has_return_spec_witness :
    (applyOps ((Function.init 0 none).add_return_site 7)
      [FOp.transit_to 1 2]).has_return = true :=
  has_return_spec.2.2.2 ((Function.init 0 none).add_return_site 7)
    [FOp.transit_to 1 2] rfl

/-- C3: each of the four mutating events for a previously-unseen
function address creates a record, so `function` subsequently returns
it, and the entry address is among the new record's own basic blocks. -/
theorem auto_vivification (m : FunctionManager) (e : Nat) (h : m.function e = none) :
    (∀ a b r, vivified (m.call_to e a b r) e) ∧
    (∀ a t, vivified (m.return_from e a t) e) ∧
    (∀ a b, vivified (m.transit_to e a b) e) ∧
    (∀ a b, vivified (m.return_from_call e a b) e) := by
  rw [function_eq_dictLookup] at h
  have hfresh : e ∈ ((Function.init e none).add_block e).basic_blocks := by
    show e ∈ insertNode (Function.init e none)._transition_graph.nodes e
    exact mem_insertNode_self _ _
  refine ⟨fun a b r => ?_, fun a t => ?_, fun a b => ?_, fun a b => ?_⟩
  · refine ⟨((Function.init e none).add_block e).add_call_site a b r, ?_, hfresh⟩
    rw [function_eq_dictLookup, call_to_def, create_map_none h,
      dictUpdate_dictInsert_of_none _ _ _ _ h]
    exact dictLookup_dictInsert_self _ _ _
  · refine ⟨((Function.init e none).add_block e).add_return_site a, ?_, hfresh⟩
    rw [function_eq_dictLookup, return_from_def, create_map_none h,
      dictUpdate_dictInsert_of_none _ _ _ _ h]
    exact dictLookup_dictInsert_self _ _ _
  · refine ⟨((Function.init e none).add_block e).transit_to a b, ?_,
      mem_basic_blocks_transit_to hfresh a b⟩
    rw [function_eq_dictLookup, transit_to_def, create_map_none h,
      dictUpdate_dictInsert_of_none _ _ _ _ h]
    exact dictLookup_dictInsert_self _ _ _
  · refine ⟨((Function.init e none).add_block e).return_from_call a b, ?_,
      mem_basic_blocks_return_from_call hfresh a b⟩
    rw [function_eq_dictLookup, return_from_call_def, create_map_none h,
      dictUpdate_dictInsert_of_none _ _ _ _ h]
    exact dictLookup_dictInsert_self _ _ _

/-- C3 witness: the four events auto-vivify address `5` in the empty
registry. -/
theorem auto_vivification_witness :
    vivified (FunctionManager.init.call_to 5 2 3 4) 5 ∧
    vivified (FunctionManager.init.return_from 5 2 none) 5 ∧
    vivified (FunctionManager.init.transit_to 5 2 3) 5 ∧
    vivified (FunctionManager.init.return_from_call 5 2 3) 5 :=
  ⟨(auto_vivification FunctionManager.init 5 rfl).1 2 3 4,
   (auto_vivification FunctionManager.init 5 rfl).2.1 2 none,
   (auto_vivification FunctionManager.init 5 rfl).2.2.1 2 3,
   (auto_vivification FunctionManager.init 5 rfl).2.2.2 2 3⟩

/-- C7: `function` on an absent address returns `none` (the absent
sentinel), and the registry state is untouched — in particular a
subsequent lookup still returns `none` after any mutating event that
names a different function address. -/
theorem lookup_no_autocreate (m : FunctionManager) (addr : Nat)
    (h : dictLookup m._function_map addr = none) :
    m.function addr = none ∧
    ∀ e : MEvent, e.function_addr ≠ addr → (applyEvent m e).function addr = none := by
  constructor
  · rw [function_eq_dictLookup]
    exact h
  · intro e hne
    cases e with
    | call_to f a b r =>
        simp only [MEvent.function_addr] at hne
        rw [function_eq_dictLookup]
        show dictLookup (m.call_to f a b r)._function_map addr = none
        rw [call_to_def]
        show dictLookup (dictUpdate (m._create_function_if_not_exist f)._function_map f _)
          addr = none
        rw [dictLookup_dictUpdate_ne _ _ _ _ (Ne.symm hne), create_lookup_ne (Ne.symm hne)]
        exact h
    | return_from f a t =>
        simp only [MEvent.function_addr] at hne
        rw [function_eq_dictLookup]
        show dictLookup (m.return_from f a t)._function_map addr = none
        rw [return_from_def]
        show dictLookup (dictUpdate (m._create_function_if_not_exist f)._function_map f _)
          addr = none
        rw [dictLookup_dictUpdate_ne _ _ _ _ (Ne.symm hne), create_lookup_ne (Ne.symm hne)]
        exact h
    | transit_to f a b =>
        simp only [MEvent.function_addr] at hne
        rw [function_eq_dictLookup]
        show dictLookup (m.transit_to f a b)._function_map addr = none
        rw [transit_to_def]
        show dictLookup (dictUpdate (m._create_function_if_not_exist f)._function_map f _)
          addr = none
        rw [dictLookup_dictUpdate_ne _ _ _ _ (Ne.symm hne), create_lookup_ne (Ne.symm hne)]
        exact h
    | return_from_call f a b =>
        simp only [MEvent.function_addr] at hne
        rw [function_eq_dictLookup]
        show dictLookup (m.return_from_call f a b)._function_map addr = none
        rw [return_from_call_def]
        show dictLookup (dictUpdate (m._create_function_if_not_exist f)._function_map f _)
          addr = none
        rw [dictLookup_dictUpdate_ne _ _ _ _ (Ne.symm hne), create_lookup_ne (Ne.symm hne)]
        exact h

theorem get_call_target_add_call_site (f : Function) (a b r : Nat) :
    (f.add_call_site a b r).get_call_target a = some b := by
  simp [Function.get_call_target, Function.add_call_site, dictLookup_dictInsert_self]

theorem get_call_return_add_call_site (f : Function) (a b r : Nat) :
    (f.add_call_site a b r).get_call_return a = some r := by
  simp [Function.get_call_return, Function.add_call_site, dictLookup_dictInsert_self]

/-- C2: `call_to(f, a, b, r)` is idempotent: a second identical
invocation leaves the registry state (function map and call graph)
unchanged, and the record at `f` holds exactly one call-site entry for
`a`, with target `b` and hypothetical return `r`. -/
theorem call_to_idempotent (m : FunctionManager) (f a b r : Nat) (hwf : ManagerWF m) :
    (m.call_to f a b r).call_to f a b r = m.call_to f a b r ∧
    ∃ rec, (m.call_to f a b r).function f = some rec ∧
      countOcc (rec._call_sites.map Prod.fst) a = 1 ∧
      rec.get_call_target a = some b ∧
      rec.get_call_return a = some r := by
  cases hdl : dictLookup m._function_map f with
  | none =>
      have hmap : (m.call_to f a b r)._function_map =
          dictInsert m._function_map f
            (((Function.init f none).add_block f).add_call_site a b r) := by
        rw [call_to_def]
        show dictUpdate (m._create_function_if_not_exist f)._function_map f _ = _
        rw [create_map_none hdl, dictUpdate_dictInsert_of_none _ _ _ _ hdl]
      have hlook : dictLookup (m.call_to f a b r)._function_map f =
          some (((Function.init f none).add_block f).add_call_site a b r) := by
        rw [hmap]
        exact dictLookup_dictInsert_self _ _ _
      refine ⟨manager_ext ?_ ?_, ?_⟩
      · show ((m.call_to f a b r).call_to f a b r)._function_map = _
        rw [call_to_def (m.call_to f a b r) f a b r]
        show dictUpdate ((m.call_to f a b r)._create_function_if_not_exist f)._function_map
          f _ = _
        rw [create_of_some hlook, hmap, dictUpdate_dictInsert_of_none _ _ _ _ hdl]
        show dictInsert m._function_map f
          ((((Function.init f none).add_block f).add_call_site a b r).add_call_site a b r) = _
        rw [add_call_site_idem]
      · rw [call_to_graph, call_to_graph, add_edge_idem]
      · refine ⟨((Function.init f none).add_block f).add_call_site a b r, ?_, ?_, ?_, ?_⟩
        · rw [function_eq_dictLookup]
          exact hlook
        · exact count_key_dictInsert _ _ _ List.nodup_nil
        · exact get_call_target_add_call_site _ _ _ _
        · exact get_call_return_add_call_site _ _ _ _
  | some v =>
      have hmap : (m.call_to f a b r)._function_map =
          dictUpdate m._function_map f (fun x => x.add_call_site a b r) := by
        rw [call_to_def]
        show dictUpdate (m._create_function_if_not_exist f)._function_map f _ = _
        rw [create_of_some hdl]
      have hlook : dictLookup (m.call_to f a b r)._function_map f =
          some (v.add_call_site a b r) := by
        rw [hmap]
        exact dictLookup_dictUpdate_self _ _ _ hdl
      refine ⟨manager_ext ?_ ?_, ?_⟩
      · show ((m.call_to f a b r).call_to f a b r)._function_map = _
        rw [call_to_def (m.call_to f a b r) f a b r]
        show dictUpdate ((m.call_to f a b r)._create_function_if_not_exist f)._function_map
          f _ = _
        rw [create_of_some hlook, hmap, dictUpdate_dictUpdate]
        exact dictUpdate_congr _ _ (fun x => add_call_site_idem x a b r)
      · rw [call_to_graph, call_to_graph, add_edge_idem]
      · refine ⟨v.add_call_site a b r, ?_, ?_, ?_, ?_⟩
        · rw [function_eq_dictLookup]
          exact hlook
        · exact count_key_dictInsert _ _ _ (hwf (f, v) (dictLookup_mem hdl))
        · exact get_call_target_add_call_site _ _ _ _
        · exact get_call_return_add_call_site _ _ _ _

/-- C2 witness: idempotence of `call_to(1, 2, 3, 4)` on the empty
registry. -/
theorem call_to_idempotent_witness :
    (FunctionManager.init.call_to 1 2 3 4).call_to 1 2 3 4 =
      FunctionManager.init.call_to 1 2 3 4 ∧
    ∃ rec, (FunctionManager.init.call_to 1 2 3 4).function 1 = some rec ∧
      countOcc (rec._call_sites.map Prod.fst) 2 = 1 ∧
      rec.get_call_target 2 = some 3 ∧
      rec.get_call_return 2 = some 4 :=
  call_to_idempotent FunctionManager.init 1 2 3 4
    (fun p hp => absurd hp (List.not_mem_nil p))

/-- C8: `call_to(0x1000, 0x1010, 0x2000, 0x1020)` puts the edge
`0x1000 → 0x2000` into the call graph, and a second `call_to` from the
same function to the same target from a different call site leaves
exactly one such edge (the graph stays simple). -/
theorem call_graph_simple_edge (m : FunctionManager) (a' r' : Nat)
    (h : m.interfunction_graph.edges.Nodup) :
    (0x1000, 0x2000) ∈
      (m.call_to 0x1000 0x1010 0x2000 0x1020).interfunction_graph.edges ∧
    countOcc ((m.call_to 0x1000 0x1010 0x2000 0x1020).call_to
        0x1000 a' 0x2000 r').interfunction_graph.edges (0x1000, 0x2000) = 1 := by
  constructor
  · rw [call_to_graph]
    exact mem_edges_add_edge _ _ _
  · rw [call_to_graph, call_to_graph]
    exact countOcc_eq_one
      (add_edge_edges_nodup _ _ _ (add_edge_edges_nodup _ _ _ h))
      (mem_edges_add_edge _ _ _)

/-- C8 witness: the two calls issued on the empty registry, the second
from call site `0x1030`. -/
theorem call_graph_simple_edge_witness :
    (0x1000, 0x2000) ∈
      (FunctionManager.init.call_to 0x1000 0x1010 0x2000 0x1020).interfunction_graph.edges ∧
    countOcc ((FunctionManager.init.call_to 0x1000 0x1010 0x2000 0x1020).call_to
        0x1000 0x1030 0x2000 0x1040).interfunction_graph.edges (0x1000, 0x2000) = 1 :=
  call_graph_simple_edge FunctionManager.init 0x1030 0x1040 List.nodup_nil

/-- C10: when a record for `f` already exists, `call_to(f, a, b, r)`
leaves the record's transition graph (hence its basic-block view),
return sites and argument sequences unchanged: only the call-site map,
the reverse index and the inter-procedural call graph are modified. -/
theorem call_to_frame (m : FunctionManager) (f a b r : Nat) (rec : Function)
    (h : dictLookup m._function_map f = some rec) :
    (m.call_to f a b r).function f = some (rec.add_call_site a b r) ∧
    (rec.add_call_site a b r)._transition_graph = rec._transition_graph ∧
    (rec.add_call_site a b r).basic_blocks = rec.basic_blocks ∧
    (rec.add_call_site a b r)._ret_sites = rec._ret_sites ∧
    (rec.add_call_site a b r)._argument_registers = rec._argument_registers ∧
    (rec.add_call_site a b r)._argument_stack_variables = rec._argument_stack_variables ∧
    (rec.add_call_site a b r)._call_sites = dictInsert rec._call_sites a (b, r) ∧
    (rec.add_call_site a b r)._retn_addr_to_call_site =
      dictInsert rec._retn_addr_to_call_site r a ∧
    (m.call_to f a b r).interfunction_graph = m.interfunction_graph.add_edge f b := by
  refine ⟨?_, rfl, rfl, rfl, rfl, rfl, rfl, rfl, call_to_graph m f a b r⟩
  rw [function_eq_dictLookup, call_to_def]
  show dictLookup (dictUpdate (m._create_function_if_not_exist f)._function_map f _) f = _
  rw [create_of_some h]
  exact dictLookup_dictUpdate_self _ _ _ h

/-- C10 witness: a registry whose record for `1` was created by
`transit_to(1, 1, 2)`. -/
theorem call_to_frame_witness :
    ((FunctionManager.init.transit_to 1 1 2).call_to 1 7 8 9).function 1 =
      some ((((Function.init 1 none).add_block 1).transit_to 1 2).add_call_site 7 8 9) ∧
    ((((Function.init 1 none).add_block 1).transit_to 1 2).add_call_site 7 8 9)._transition_graph =
      (((Function.init 1 none).add_block 1).transit_to 1 2)._transition_graph ∧
    ((((Function.init 1 none).add_block 1).transit_to 1 2).add_call_site 7 8 9).basic_blocks =
      (((Function.init 1 none).add_block 1).transit_to 1 2).basic_blocks ∧
    ((((Function.init 1 none).add_block 1).transit_to 1 2).add_call_site 7 8 9)._ret_sites =
      (((Function.init 1 none).add_block 1).transit_to 1 2)._ret_sites ∧
    ((((Function.init 1 none).add_block 1).transit_to 1 2).add_call_site 7 8 9)._argument_registers =
      (((Function.init 1 none).add_block 1).transit_to 1 2)._argument_registers ∧
    ((((Function.init 1 none).add_block 1).transit_to 1 2).add_call_site 7 8 9)._argument_stack_variables =
      (((Function.init 1 none).add_block 1).transit_to 1 2)._argument_stack_variables ∧
    ((((Function.init 1 none).add_block 1).transit_to 1 2).add_call_site 7 8 9)._call_sites =
      dictInsert (((Function.init 1 none).add_block 1).transit_to 1 2)._call_sites 7 (8, 9) ∧
    ((((Function.init 1 none).add_block 1).transit_to 1 2).add_call_site 7 8 9)._retn_addr_to_call_site =
      dictInsert (((Function.init 1 none).add_block 1).transit_to 1 2)._retn_addr_to_call_site 9 7 ∧
    ((FunctionManager.init.transit_to 1 1 2).call_to 1 7 8 9).interfunction_graph =
      (FunctionManager.init.transit_to 1 1 2).interfunction_graph.add_edge 1 8 :=
  call_to_frame (FunctionManager.init.transit_to 1 1 2) 1 7 8 9
    (((Function.init 1 none).add_block 1).transit_to 1 2) rfl

/-- C1 counterexample: re-registering call site `1` with a different
hypothetical return (`add_call_site(1, 10, 100)` then
`add_call_site(1, 11, 101)`) leaves the stale reverse entry
`100 ↦ 1` while `callSites[1]`'s second element is `101`, so the
claimed invariant fails. -/
theorem reverse_index_cex :
    dictLookup (((Function.init 0 none).add_call_site 1 10 100).add_call_site
      1 11 101)._retn_addr_to_call_site 100 = some 1 ∧
    dictLookup (((Function.init 0 none).add_call_site 1 10 100).add_call_site
      1 11 101)._call_sites 1 = some (11, 101) ∧
    ¬ ReverseConsistent
      (((Function.init 0 none).add_call_site 1 10 100).add_call_site 1 11 101) := by
  refine ⟨rfl, rfl, ?_⟩
  intro hc
  obtain ⟨p, hp, hpr⟩ := hc 100 1 rfl
  have hp2 : some ((11 : Nat), (101 : Nat)) = some p := hp
  injection hp2 with hps
  rw [← hps] at hpr
  exact absurd hpr (by decide)

theorem add_call_site_consistent {g : Function} {a t r : Nat}
    (hg : ReverseConsistent g) (hnew : dictLookup g._call_sites a = none) :
    ReverseConsistent (g.add_call_site a t r) := by
  intro r' a' hr'
  have hr2 : dictLookup (dictInsert g._retn_addr_to_call_site r a) r' = some a' := hr'
  by_cases hrr : r' = r
  · subst hrr
    rw [dictLookup_dictInsert_self] at hr2
    have ha : a = a' := by injection hr2
    subst ha
    refine ⟨(t, r'), ?_, rfl⟩
    show dictLookup (dictInsert g._call_sites a (t, r')) a = some (t, r')
    exact dictLookup_dictInsert_self _ _ _
  · rw [dictLookup_dictInsert_ne _ _ _ _ hrr] at hr2
    obtain ⟨p, hp, hpr⟩ := hg r' a' hr2
    have hne : a' ≠ a := by
      intro he
      rw [he, hnew] at hp
      exact Option.noConfusion hp
    refine ⟨p, ?_, hpr⟩
    show dictLookup (dictInsert g._call_sites a (t, r)) a' = some p
    rw [dictLookup_dictInsert_ne _ _ _ _ hne]
    exact hp

/-- C1 (amended): the reverse index stays consistent with the call-site
map across any sequence of `add_call_site` operations whose call-site
addresses are pairwise distinct and not yet registered — the invariant
of the claim fails only when a call site is re-registered with a
different hypothetical return address. -/
theorem reverse_index_consistent (g : Function) (ops : List (Nat × Nat × Nat))
    (hg : ReverseConsistent g)
    (hfree : ∀ op ∈ ops, dictLookup g._call_sites op.1 = none)
    (hnodup : (ops.map (fun op => op.1)).Nodup) :
    ReverseConsistent (applyCallSites g ops) := by
  induction ops generalizing g with
  | nil => simpa [applyCallSites] using hg
  | cons op rest ih =>
      obtain ⟨a, t, r⟩ := op
      simp only [List.map_cons, List.nodup_cons] at hnodup
      have h0 : dictLookup g._call_sites a = none :=
        hfree (a, t, r) (List.mem_cons_self _ _)
      have hg' : ReverseConsistent (g.add_call_site a t r) :=
        add_call_site_consistent hg h0
      have hfree' : ∀ op' ∈ rest,
          dictLookup (g.add_call_site a t r)._call_sites op'.1 = none := by
        intro op' hmem
        have hne : op'.1 ≠ a := by
          intro he
          have hmm : op'.1 ∈ rest.map (fun op => op.1) :=
            List.mem_map_of_mem _ hmem
          rw [he] at hmm
          exact hnodup.1 hmm
        show dictLookup (dictInsert g._call_sites a (t, r)) op'.1 = none
        rw [dictLookup_dictInsert_ne _ _ _ _ hne]
        exact hfree op' (List.mem_cons_of_mem _ hmem)
      have hrec := ih (g.add_call_site a t r) hg' hfree' hnodup.2
      simpa [applyCallSites] using hrec

/-- C1 witness: two `add_call_site` operations at distinct call sites
on a fresh record. -/
theorem reverse_index_consistent_witness :
    ReverseConsistent (applyCallSites (Function.init 0 none) [(1, 10, 100), (2, 11, 101)]) :=
  reverse_index_consistent (Function.init 0 none) [(1, 10, 100), (2, 11, 101)]
    (fun r a h => Option.noConfusion h) (fun op _ => rfl) (by decide)

/-- C7 witness: looking up the absent address `5` in the empty registry. -/
theorem lookup_no_autocreate_witness :
    FunctionManager.init.function 5 = none ∧
    ∀ e : MEvent, e.function_addr ≠ 5 →
      (applyEvent FunctionManager.init e).function 5 = none :=
  lookup_no_autocreate FunctionManager.init 5 rfl

end Angr
